import Mathlib

/-!
Shallow embedding of `useRetryFn` (src/index.ts / src/index.js) and proofs of
the specification claims.

The source is a retry wrapper:

  const useRetryFn = async (fn, options = {}) => {
    let attempts = 1;
    let lastError = null;
    let maxAttempts = options.maxAttempts ?? 5;
    while (attempts <= maxAttempts) {
      let customError = null;
      let skipRetry = false;
      let delay = typeof options.delay === 'function'
        ? options.delay({ attempts }) : (options.delay ?? 100);
      try {
        const result = await Promise.race([
          fn({ attempts, skipRetry: (err) => { customError = err ?? null; skipRetry = true; } }),
          ...(options.timeout ? [timer that sets skipRetry = true and rejects
                                 with new Error('Operation timed out')] : [])
        ]);
        return result;
      } catch (err) {
        lastError = err;
        attempts++;
        if (typeof options.onError === 'function') {
          options.onError({ attempts, skipRetry: (err) => { customError = err ?? null; skipRetry = true; } });
        }
        if (skipRetry) { throw customError || lastError; }
        await new Promise(resolve => { setTimeout(resolve, delay); });
      }
    }
    throw lastError;
  };

Modelling decisions:
* JS `Error` values are `JsError` (a message-carrying constructor); `null` is
  `Option.none` where the source can hold null (`lastError`, `customError`).
* One invocation of the operation is a `FnBehavior`: the `skipRetry` calls it
  performs before the race settles, its eventual result, and its duration in
  time units (used only to decide the race against the timeout timer).
* The timer participates in the race only when `options.timeout` is truthy
  (present and nonzero, per JS truthiness of `options.timeout ? _ : _`); it
  wins when `timeout < duration` (the operation wins ties because its own
  timers are registered first).  A stale timer or stale skip call firing after
  the race has settled mutates only that iteration's dead variables and has no
  observable effect, so it is not modelled.
* The `onError` hook, when configured, is a function of the post-increment
  attempt ordinal giving the skip calls it makes and the exception it throws,
  if any (a throw inside the catch block propagates out of `useRetryFn`).
* The `while (attempts <= maxAttempts)` loop is driven by the explicit count
  `remaining = maxAttempts + 1 - attempts` of iterations still allowed, so the
  guard `attempts <= maxAttempts` becomes `remaining > 0`; `useRetryFn` starts
  at `attempts = 1` with `remaining = maxAttempts.toNat`.
* The run is observed through a `RunResult`: the outcome (`Except.error none`
  is JS `throw null`), the `attempts` values passed to `fn`, the `attempts`
  values passed to `onError`, the delay values actually awaited, and the final
  value of the `attempts` counter.
-/

/-- JS `Error` values: `JsError.mk msg` models `new Error(msg)`. -/
inductive JsError where
  | mk (msg : String)
deriving DecidableEq, Repr

/-- The error synthesized by the timeout timer: `new Error('Operation timed out')`. -/
def timeoutError : JsError := JsError.mk "Operation timed out"

/-- The per-iteration mutable pair `customError` / `skipRetry` of the source. -/
structure SkipState where
  customError : Option JsError
  skipRetry : Bool
deriving DecidableEq, Repr

/-- One call of the skip capability: `customError = err ?? null; skipRetry = true`.
The argument is `none` when the capability is invoked with no argument. -/
def skipRetryCall (_ : SkipState) (err : Option JsError) : SkipState :=
  { customError := err, skipRetry := true }

/-- A sequence of skip-capability calls applied in order to a skip state. -/
def applySkipCalls (s : SkipState) (calls : List (Option JsError)) : SkipState :=
  calls.foldl skipRetryCall s

/-- Behavior of one invocation of the operation `fn`: the skip-capability calls
it makes before the race settles, its result, and how long it takes. -/
structure FnBehavior (α : Type) where
  skipCalls : List (Option JsError)
  result : Except JsError α
  duration : Nat

/-- Behavior of one invocation of the `onError` hook: the skip-capability calls
it makes and the exception it throws, if any. -/
structure OnErrorBehavior where
  skipCalls : List (Option JsError)
  thrown : Option JsError

/-- The `delay` option: absent, a fixed number, or a function of the attempt
ordinal (`typeof options.delay === 'function'` test in the source). -/
inductive DelaySpec where
  | unset
  | fixed (d : Nat)
  | computed (f : Nat → Nat)

/-- `typeof options.delay === 'function' ? options.delay({attempts}) : (options.delay ?? 100)`. -/
def resolveDelay : DelaySpec → Nat → Nat
  | DelaySpec.unset, _ => 100
  | DelaySpec.fixed d, _ => d
  | DelaySpec.computed f, attempts => f attempts

/-- The options record of `useRetryFn`. -/
structure Options (α : Type) where
  maxAttempts : Option Int := none
  delay : DelaySpec := DelaySpec.unset
  timeout : Option Nat := none
  onError : Option (Nat → OnErrorBehavior) := none

/-- `options.maxAttempts ?? 5`. -/
def Options.maxAttemptsVal (o : Options α) : Int :=
  o.maxAttempts.getD 5

/-- Whether the timeout timer wins the race for this invocation: the timer is
in the race only when `options.timeout` is truthy (nonzero), and fires first
exactly when it is shorter than the operation's duration. -/
def timerWins (timeout : Option Nat) (b : FnBehavior α) : Bool :=
  match timeout with
  | some t => t != 0 && t < b.duration
  | none => false

/-- Result of `Promise.race`: the timeout error when the timer wins, otherwise
the operation's own result. -/
def raceResult (timeout : Option Nat) (b : FnBehavior α) : Except JsError α :=
  if timerWins timeout b then Except.error timeoutError else b.result

/-- The skip state after the race has settled: the operation's skip calls,
plus the timer's unconditional `skipRetry = true` when the timer wins. -/
def raceSkipState (timeout : Option Nat) (b : FnBehavior α) : SkipState :=
  let s := applySkipCalls ⟨none, false⟩ b.skipCalls
  if timerWins timeout b then { s with skipRetry := true } else s

/-- Observable trace of one `useRetryFn` call.  `result` is the outcome
(`Except.error none` is JS `throw null`); `fnCalls` lists the `attempts`
values passed to the operation in order; `onErrorCalls` lists the `attempts`
values passed to `onError`; `delaysAwaited` lists the delay values actually
awaited between attempts; `finalAttempts` is the last value of the `attempts`
counter. -/
structure RunResult (α : Type) where
  result : Except (Option JsError) α
  fnCalls : List Nat
  onErrorCalls : List Nat
  delaysAwaited : List Nat
  finalAttempts : Nat
deriving Repr

/-- The retry loop.  `remaining = maxAttempts + 1 - attempts` counts the
iterations the guard `attempts <= maxAttempts` still allows, so the guard is
`remaining > 0`; `attempts` and `lastError` are the loop variables of the
source. -/
def runLoop (fn : Nat → FnBehavior α) (opts : Options α) :
    Nat → Nat → Option JsError → RunResult α
  | 0, attempts, lastError =>
    -- guard false: `throw lastError`
    ⟨Except.error lastError, [], [], [], attempts⟩
  | remaining + 1, attempts, _lastError =>
    let delay := resolveDelay opts.delay attempts
    let b := fn attempts
    match raceResult opts.timeout b with
    | Except.ok v =>
      -- `return result`
      ⟨Except.ok v, [attempts], [], [], attempts⟩
    | Except.error err =>
      -- catch block: `lastError = err; attempts++`
      let s1 := raceSkipState opts.timeout b
      let s2 := match opts.onError with
        | some handler => applySkipCalls s1 (handler (attempts + 1)).skipCalls
        | none => s1
      let oeCalls : List Nat := if opts.onError.isSome then [attempts + 1] else []
      let oeThrown : Option JsError := match opts.onError with
        | some handler => (handler (attempts + 1)).thrown
        | none => none
      match oeThrown with
      | some e2 =>
        -- the `onError` callback itself threw: propagates out of the loop
        ⟨Except.error (some e2), [attempts], oeCalls, [], attempts + 1⟩
      | none =>
        if s2.skipRetry then
          -- `if (skipRetry) { throw customError || lastError; }`
          ⟨Except.error (some (s2.customError.getD err)), [attempts], oeCalls, [], attempts + 1⟩
        else
          -- `await sleep(delay)`, then next iteration
          let r := runLoop fn opts remaining (attempts + 1) (some err)
          ⟨r.result, attempts :: r.fnCalls, oeCalls ++ r.onErrorCalls,
            delay :: r.delaysAwaited, r.finalAttempts⟩

/-- `useRetryFn fn options`: start at `attempts = 1`, `lastError = null`, with
`maxAttempts.toNat` iterations allowed by the guard. -/
def useRetryFn (fn : Nat → FnBehavior α) (opts : Options α) : RunResult α :=
  runLoop fn opts opts.maxAttemptsVal.toNat 1 none

/-! ### The skip-state machine -/

theorem applySkipCalls_nil (s : SkipState) : applySkipCalls s [] = s := rfl

theorem applySkipCalls_append (s : SkipState) (l1 l2 : List (Option JsError)) :
    applySkipCalls s (l1 ++ l2) = applySkipCalls (applySkipCalls s l1) l2 :=
  List.foldl_append skipRetryCall s l1 l2

theorem applySkipCalls_getLast (s : SkipState) (l : List (Option JsError))
    (c : Option JsError) (h : l.getLast? = some c) :
    applySkipCalls s l = ⟨c, true⟩ := by
  induction l using List.reverseRecOn with
  | nil => simp at h
  | append_singleton l x ih =>
    rw [List.getLast?_concat] at h
    cases h
    rw [applySkipCalls_append]
    rfl

theorem applySkipCalls_latched (s : SkipState) (l : List (Option JsError))
    (h : s.skipRetry = true) : (applySkipCalls s l).skipRetry = true := by
  induction l generalizing s with
  | nil => exact h
  | cons x l ih => exact ih (skipRetryCall s x) rfl

/-! ### Single-step equations for the loop -/

theorem runLoop_zero (fn : Nat → FnBehavior α) (opts : Options α)
    (a : Nat) (le : Option JsError) :
    runLoop fn opts 0 a le = ⟨Except.error le, [], [], [], a⟩ := rfl

theorem runLoop_succ_success (fn : Nat → FnBehavior α) (opts : Options α)
    (f a : Nat) (le : Option JsError) (v : α)
    (hres : raceResult opts.timeout (fn a) = Except.ok v) :
    runLoop fn opts (f + 1) a le = ⟨Except.ok v, [a], [], [], a⟩ := by
  simp [runLoop, hres]

theorem runLoop_succ_fail_continue (fn : Nat → FnBehavior α) (opts : Options α)
    (f a : Nat) (le : Option JsError) (err : JsError)
    (htimeout : opts.timeout = none)
    (hres : (fn a).result = Except.error err)
    (hskip : (fn a).skipCalls = [])
    (hoe : ∀ handler, opts.onError = some handler →
      (handler (a + 1)).skipCalls = [] ∧ (handler (a + 1)).thrown = none) :
    runLoop fn opts (f + 1) a le =
      { result := (runLoop fn opts f (a + 1) (some err)).result
        fnCalls := a :: (runLoop fn opts f (a + 1) (some err)).fnCalls
        onErrorCalls := (if opts.onError.isSome then [a + 1] else [])
          ++ (runLoop fn opts f (a + 1) (some err)).onErrorCalls
        delaysAwaited := resolveDelay opts.delay a
          :: (runLoop fn opts f (a + 1) (some err)).delaysAwaited
        finalAttempts := (runLoop fn opts f (a + 1) (some err)).finalAttempts } := by
  cases hoecfg : opts.onError with
  | none =>
    simp [runLoop, raceResult, raceSkipState, timerWins, htimeout, hres, hskip, hoecfg,
      applySkipCalls]
  | some handler =>
    obtain ⟨h1, h2⟩ := hoe handler hoecfg
    simp [runLoop, raceResult, raceSkipState, timerWins, htimeout, hres, hskip, hoecfg,
      h1, h2, applySkipCalls]

theorem runLoop_succ_skip (fn : Nat → FnBehavior α) (opts : Options α)
    (f a : Nat) (le : Option JsError) (err : JsError) (c : Option JsError)
    (htimeout : opts.timeout = none)
    (hres : (fn a).result = Except.error err)
    (hlast : ((fn a).skipCalls
        ++ (match opts.onError with
            | some handler => (handler (a + 1)).skipCalls
            | none => [])).getLast? = some c)
    (hthrown : ∀ handler, opts.onError = some handler → (handler (a + 1)).thrown = none) :
    runLoop fn opts (f + 1) a le =
      ⟨Except.error (some (c.getD err)), [a],
       (if opts.onError.isSome then [a + 1] else []), [], a + 1⟩ := by
  cases hoecfg : opts.onError with
  | none =>
    rw [hoecfg] at hlast
    have hs : applySkipCalls ⟨none, false⟩ (fn a).skipCalls = ⟨c, true⟩ := by
      rw [← List.append_nil (fn a).skipCalls]
      exact applySkipCalls_getLast _ _ _ hlast
    simp [runLoop, raceResult, raceSkipState, timerWins, htimeout, hres, hoecfg, hs]
  | some handler =>
    rw [hoecfg] at hlast
    have hs : applySkipCalls (applySkipCalls ⟨none, false⟩ (fn a).skipCalls)
        (handler (a + 1)).skipCalls = ⟨c, true⟩ := by
      rw [← applySkipCalls_append]
      exact applySkipCalls_getLast _ _ _ hlast
    simp [runLoop, raceResult, raceSkipState, timerWins, htimeout, hres, hoecfg,
      hthrown handler hoecfg, hs]

theorem runLoop_succ_handler_throws (fn : Nat → FnBehavior α) (opts : Options α)
    (handler : Nat → OnErrorBehavior) (f a : Nat) (le : Option JsError)
    (err e2 : JsError)
    (htimeout : opts.timeout = none)
    (hoecfg : opts.onError = some handler)
    (hres : (fn a).result = Except.error err)
    (hthrown : (handler (a + 1)).thrown = some e2) :
    runLoop fn opts (f + 1) a le =
      ⟨Except.error (some e2), [a], [a + 1], [], a + 1⟩ := by
  simp [runLoop, raceResult, timerWins, htimeout, hres, hoecfg, hthrown]

theorem runLoop_succ_timer (fn : Nat → FnBehavior α) (opts : Options α)
    (f a : Nat) (le : Option JsError) (t : Nat)
    (htimeout : opts.timeout = some t) (ht : 0 < t)
    (hdur : t < (fn a).duration)
    (hskip : (fn a).skipCalls = [])
    (hoe : ∀ handler, opts.onError = some handler →
      (handler (a + 1)).skipCalls = [] ∧ (handler (a + 1)).thrown = none) :
    runLoop fn opts (f + 1) a le =
      ⟨Except.error (some timeoutError), [a],
       (if opts.onError.isSome then [a + 1] else []), [], a + 1⟩ := by
  have hw : timerWins opts.timeout (fn a) = true := by
    simp [timerWins, htimeout, hdur]
    omega
  cases hoecfg : opts.onError with
  | none =>
    simp [runLoop, raceResult, raceSkipState, hw, hoecfg, hskip, applySkipCalls]
  | some handler =>
    obtain ⟨h1, h2⟩ := hoe handler hoecfg
    simp [runLoop, raceResult, raceSkipState, hw, hoecfg, hskip, h1, h2, applySkipCalls]

/-- Trace of `j` failed-and-retried attempts with ordinals `a, a+1, ...`
prepended to the trace of the rest of the run. -/
def prependFails (opts : Options α) (a j : Nat) (r : RunResult α) : RunResult α :=
  ⟨r.result,
   List.range' a j ++ r.fnCalls,
   (if opts.onError.isSome then List.range' (a + 1) j else []) ++ r.onErrorCalls,
   (List.range' a j).map (resolveDelay opts.delay) ++ r.delaysAwaited,
   r.finalAttempts⟩

theorem runLoop_failSegment (fn : Nat → FnBehavior α) (opts : Options α) (errOf : Nat → JsError) :
    ∀ (j f a : Nat) (le : Option JsError),
    (∀ i, a ≤ i → i < a + j → (fn i).result = Except.error (errOf i)) →
    (∀ i, a ≤ i → i < a + j → (fn i).skipCalls = []) →
    opts.timeout = none →
    (∀ handler, opts.onError = some handler → ∀ i, a < i → i ≤ a + j →
      (handler i).skipCalls = [] ∧ (handler i).thrown = none) →
    runLoop fn opts (f + j) a le =
      prependFails opts a j
        (runLoop fn opts f (a + j) (if j = 0 then le else some (errOf (a + j - 1)))) := by
  intro j
  induction j with
  | zero =>
    intro f a le _ _ _ _
    simp [prependFails]
  | succ j ih =>
    intro f a le hferr hfskip htimeout honerr
    have h1 : f + (j + 1) = (f + j) + 1 := by omega
    rw [h1, runLoop_succ_fail_continue fn opts (f + j) a le (errOf a) htimeout
      (hferr a (Nat.le_refl a) (by omega)) (hfskip a (Nat.le_refl a) (by omega))
      (fun handler hh => honerr handler hh (a + 1) (by omega) (by omega))]
    rw [ih f (a + 1) (some (errOf a))
      (fun i h1 h2 => hferr i (by omega) (by omega))
      (fun i h1 h2 => hfskip i (by omega) (by omega))
      htimeout
      (fun handler hh i h1 h2 => honerr handler hh i (by omega) (by omega))]
    have h2 : a + 1 + j = a + (j + 1) := by omega
    have h4 : a + (j + 1) - 1 = a + j := by omega
    have hle1 : (if j = 0 then some (errOf a) else some (errOf (a + (j + 1) - 1)))
        = some (errOf (a + j)) := by
      rw [h4]
      cases j with
      | zero => simp
      | succ k => rw [if_neg (Nat.succ_ne_zero k)]
    have hle2 : (if j + 1 = 0 then le else some (errOf (a + (j + 1) - 1)))
        = some (errOf (a + j)) := by
      rw [if_neg (Nat.succ_ne_zero j), h4]
    rw [h2, hle1, hle2]
    cases hb : opts.onError.isSome <;>
      simp [prependFails, hb, List.range'_succ, List.cons_append, List.append_assoc]

/-! ### General trace lemmas -/

/-- Whether the race of attempt `i` settles as a failure. -/
def attemptFails (opts : Options α) (fn : Nat → FnBehavior α) (i : Nat) : Bool :=
  match raceResult opts.timeout (fn i) with
  | Except.error _ => true
  | Except.ok _ => false

theorem onError_trace (fn : Nat → FnBehavior α) (opts : Options α)
    (handler : Nat → OnErrorBehavior) (hoecfg : opts.onError = some handler) :
    ∀ (f a : Nat) (le : Option JsError),
    (runLoop fn opts f a le).onErrorCalls =
      ((runLoop fn opts f a le).fnCalls.filter (attemptFails opts fn)).map
        (fun i => i + 1) := by
  intro f
  induction f with
  | zero => intro a le; simp [runLoop_zero]
  | succ f ih =>
    intro a le
    cases hr : raceResult opts.timeout (fn a) with
    | ok v => simp [runLoop, hr, attemptFails]
    | error err =>
      cases hth : (handler (a + 1)).thrown with
      | some e2 => simp [runLoop, hr, hoecfg, hth, attemptFails]
      | none =>
        simp only [runLoop, hr, hoecfg, hth]
        split
        · simp [attemptFails, hr, hoecfg]
        · simp [attemptFails, hr, hoecfg]
          exact ih (a + 1) (some err)

theorem onError_silent (fn : Nat → FnBehavior α) (opts : Options α)
    (hoecfg : opts.onError = none) :
    ∀ (f a : Nat) (le : Option JsError),
    (runLoop fn opts f a le).onErrorCalls = [] := by
  intro f
  induction f with
  | zero => intro a le; simp [runLoop_zero]
  | succ f ih =>
    intro a le
    cases hr : raceResult opts.timeout (fn a) with
    | ok v => simp [runLoop, hr]
    | error err =>
      simp only [runLoop, hr, hoecfg]
      split
      · simp
      · simp [hoecfg]
        exact ih (a + 1) (some err)

theorem fnCalls_consecutive (fn : Nat → FnBehavior α) (opts : Options α) :
    ∀ (f a : Nat) (le : Option JsError),
    (runLoop fn opts f a le).fnCalls
      = List.range' a (runLoop fn opts f a le).fnCalls.length := by
  intro f
  induction f with
  | zero => intro a le; simp [runLoop_zero]
  | succ f ih =>
    intro a le
    cases hr : raceResult opts.timeout (fn a) with
    | ok v => simp [runLoop, hr, List.range'_succ]
    | error err =>
      cases hoecfg : opts.onError with
      | none =>
        simp only [runLoop, hr, hoecfg]
        split
        · simp [List.range'_succ]
        · simp [List.range'_succ]
          exact ih (a + 1) (some err)
      | some handler =>
        cases hth : (handler (a + 1)).thrown with
        | some e2 => simp [runLoop, hr, hoecfg, hth, List.range'_succ]
        | none =>
          simp only [runLoop, hr, hoecfg, hth]
          split
          · simp [List.range'_succ]
          · simp [List.range'_succ]
            exact ih (a + 1) (some err)

theorem finalAttempts_le (fn : Nat → FnBehavior α) (opts : Options α) :
    ∀ (f a : Nat) (le : Option JsError),
    (runLoop fn opts f a le).finalAttempts ≤ a + f := by
  intro f
  induction f with
  | zero => intro a le; simp [runLoop_zero]
  | succ f ih =>
    intro a le
    cases hr : raceResult opts.timeout (fn a) with
    | ok v => simp [runLoop, hr]
    | error err =>
      have h := ih (a + 1) (some err)
      cases hoecfg : opts.onError with
      | none =>
        simp only [runLoop, hr, hoecfg]
        split
        · simp
        · simp
          omega
      | some handler =>
        cases hth : (handler (a + 1)).thrown with
        | some e2 => simp [runLoop, hr, hoecfg, hth]
        | none =>
          simp only [runLoop, hr, hoecfg, hth]
          split
          · simp
          · simp
            omega

theorem range'_concat_one (s n : Nat) :
    List.range' s (n + 1) = List.range' s n ++ [s + n] :=
  List.range'_1_concat s n

/-! ### Scenario lemmas for whole runs -/

/-- A run in which the first `k` attempts fail benignly (no skip calls, no
timeout configured, benign `onError`) and attempt `k+1` succeeds. -/
theorem useRetryFn_failThenSucceed (fn : Nat → FnBehavior α) (opts : Options α)
    (errOf : Nat → JsError) (v : α) (k : Nat)
    (hk : (k : Int) < opts.maxAttemptsVal)
    (htimeout : opts.timeout = none)
    (hfail : ∀ i, 1 ≤ i → i ≤ k → (fn i).result = Except.error (errOf i))
    (hskip : ∀ i, 1 ≤ i → i ≤ k → (fn i).skipCalls = [])
    (hsucc : (fn (k + 1)).result = Except.ok v)
    (hoe : ∀ handler, opts.onError = some handler → ∀ i,
      (handler i).skipCalls = [] ∧ (handler i).thrown = none) :
    useRetryFn fn opts =
      ⟨Except.ok v, List.range' 1 (k + 1),
       (if opts.onError.isSome then List.range' 2 k else []),
       (List.range' 1 k).map (resolveDelay opts.delay), k + 1⟩ := by
  have hF : k + 1 ≤ opts.maxAttemptsVal.toNat := by omega
  have hpre := runLoop_failSegment fn opts errOf k (opts.maxAttemptsVal.toNat - k) 1 none
    (fun i h1 h2 => hfail i h1 (by omega))
    (fun i h1 h2 => hskip i h1 (by omega))
    htimeout
    (fun handler hh i _ _ => hoe handler hh i)
  have hsplit : opts.maxAttemptsVal.toNat - k + k = opts.maxAttemptsVal.toNat := by omega
  rw [hsplit] at hpre
  unfold useRetryFn
  rw [hpre]
  have hrem : opts.maxAttemptsVal.toNat - k = (opts.maxAttemptsVal.toNat - k - 1) + 1 := by
    omega
  rw [hrem]
  rw [runLoop_succ_success fn opts (opts.maxAttemptsVal.toNat - k - 1) (1 + k) _ v
    (by
      have h1k : 1 + k = k + 1 := by omega
      simp [raceResult, timerWins, htimeout, h1k, hsucc])]
  have h1k : 1 + k = k + 1 := by omega
  simp [prependFails, h1k, range'_concat_one]

/-- A run in which every attempt up to `maxAttempts = m` fails benignly
(no skip calls, no timeout configured, benign `onError`): the loop exhausts
its attempt budget. -/
theorem useRetryFn_exhaust (fn : Nat → FnBehavior α) (opts : Options α)
    (errOf : Nat → JsError) (m : Nat) (hm : 1 ≤ m)
    (hM : opts.maxAttemptsVal = (m : Int))
    (htimeout : opts.timeout = none)
    (hfail : ∀ i, 1 ≤ i → i ≤ m → (fn i).result = Except.error (errOf i))
    (hskip : ∀ i, 1 ≤ i → i ≤ m → (fn i).skipCalls = [])
    (hoe : ∀ handler, opts.onError = some handler → ∀ i,
      (handler i).skipCalls = [] ∧ (handler i).thrown = none) :
    useRetryFn fn opts =
      ⟨Except.error (some (errOf m)), List.range' 1 m,
       (if opts.onError.isSome then List.range' 2 m else []),
       (List.range' 1 m).map (resolveDelay opts.delay), m + 1⟩ := by
  have hpre := runLoop_failSegment fn opts errOf m 0 1 none
    (fun i h1 h2 => hfail i h1 (by omega))
    (fun i h1 h2 => hskip i h1 (by omega))
    htimeout
    (fun handler hh i _ _ => hoe handler hh i)
  rw [Nat.zero_add] at hpre
  unfold useRetryFn
  rw [hM, Int.toNat_natCast, hpre, runLoop_zero]
  have hle : (if m = 0 then (none : Option JsError) else some (errOf (1 + m - 1)))
      = some (errOf m) := by
    rw [if_neg (by omega)]
    have h1m : 1 + m - 1 = m := by omega
    rw [h1m]
  rw [hle]
  simp [prependFails]
  omega

/-! ### Concrete fixtures for witness instantiations -/

/-- A concrete always-failing attempt behavior. -/
def bfail (msg : String) : FnBehavior Nat :=
  ⟨[], Except.error (JsError.mk msg), 0⟩

/-- A concrete succeeding attempt behavior. -/
def bok (v : Nat) : FnBehavior Nat :=
  ⟨[], Except.ok v, 0⟩

/-- A concrete `onError` hook that neither skips nor throws. -/
def benignHandler : Nat → OnErrorBehavior := fun _ => ⟨[], none⟩

/-! ### The claims -/

/-- C1: for every operation that fails on its first `k` invocations and
succeeds on invocation `k+1`, where `k < maxAttempts`, `execute` resolves with
the success value, the operation is invoked exactly `k+1` times, and the
inter-attempt delay is awaited exactly `k` times; in particular for `k = 0`
the operation is invoked exactly once and no delay is awaited. -/
theorem claim_C1 (fn : Nat → FnBehavior α) (opts : Options α)
    (errOf : Nat → JsError) (v : α) (k : Nat)
    (hk : (k : Int) < opts.maxAttemptsVal)
    (htimeout : opts.timeout = none)
    (hfail : ∀ i, 1 ≤ i → i ≤ k → (fn i).result = Except.error (errOf i))
    (hskip : ∀ i, 1 ≤ i → i ≤ k → (fn i).skipCalls = [])
    (hsucc : (fn (k + 1)).result = Except.ok v)
    (hoe : ∀ handler, opts.onError = some handler → ∀ i,
      (handler i).skipCalls = [] ∧ (handler i).thrown = none) :
    (useRetryFn fn opts).result = Except.ok v
    ∧ (useRetryFn fn opts).fnCalls.length = k + 1
    ∧ (useRetryFn fn opts).delaysAwaited.length = k := by
  rw [useRetryFn_failThenSucceed fn opts errOf v k hk htimeout hfail hskip hsucc hoe]
  simp

theorem claim_C1_witness :
    (useRetryFn (fun i => if i ≤ 2 then bfail "a" else bok 42) ({} : Options Nat)).result
        = Except.ok 42
    ∧ (useRetryFn (fun i => if i ≤ 2 then bfail "a" else bok 42)
        ({} : Options Nat)).fnCalls.length = 2 + 1
    ∧ (useRetryFn (fun i => if i ≤ 2 then bfail "a" else bok 42)
        ({} : Options Nat)).delaysAwaited.length = 2 :=
  claim_C1 (fun i => if i ≤ 2 then bfail "a" else bok 42) {} (fun _ => JsError.mk "a")
    42 2 (by decide) rfl
    (fun i h1 h2 => by simp [h2, bfail])
    (fun i h1 h2 => by simp [h2, bfail])
    rfl
    (fun handler hh => by cases hh)

/-- C2: for every operation that fails on every invocation, when the skip
capability is never invoked and `maxAttempts` is configured to `m` (default 5),
`execute` fails with the error raised by the `m`-th invocation and the
operation is invoked exactly `m` times. -/
theorem claim_C2 (fn : Nat → FnBehavior α) (opts : Options α)
    (errOf : Nat → JsError) (m : Nat) (hm : 1 ≤ m)
    (hM : opts.maxAttemptsVal = (m : Int))
    (htimeout : opts.timeout = none)
    (hfail : ∀ i, 1 ≤ i → i ≤ m → (fn i).result = Except.error (errOf i))
    (hskip : ∀ i, 1 ≤ i → i ≤ m → (fn i).skipCalls = [])
    (hoe : ∀ handler, opts.onError = some handler → ∀ i,
      (handler i).skipCalls = [] ∧ (handler i).thrown = none) :
    (useRetryFn fn opts).result = Except.error (some (errOf m))
    ∧ (useRetryFn fn opts).fnCalls.length = m
    ∧ (∀ o : Options α, o.maxAttempts = none → o.maxAttemptsVal = 5) := by
  rw [useRetryFn_exhaust fn opts errOf m hm hM htimeout hfail hskip hoe]
  refine ⟨rfl, by simp, fun o h => ?_⟩
  simp [Options.maxAttemptsVal, h]

theorem claim_C2_witness :
    (useRetryFn (fun i => bfail (toString i)) ({} : Options Nat)).result
        = Except.error (some (JsError.mk (toString 5)))
    ∧ (useRetryFn (fun i => bfail (toString i)) ({} : Options Nat)).fnCalls.length = 5
    ∧ (∀ o : Options Nat, o.maxAttempts = none → o.maxAttemptsVal = 5) :=
  claim_C2 (fun i => bfail (toString i)) {} (fun i => JsError.mk (toString i)) 5
    (by decide) rfl rfl
    (fun i h1 h2 => rfl)
    (fun i h1 h2 => rfl)
    (fun handler hh => by cases hh)

/-- C3 counterexample: an operation that always fails with no skip calls,
`maxAttempts = 1`: the claim says the delay is awaited `1 - 1 = 0` times with
no suspension after the final failure, but the run awaits the delay once —
the `await sleep(delay)` at the end of the catch block also runs after the
attempt-exhausting failure. -/
theorem claim_C3_counterexample :
    (useRetryFn (fun _ => bfail "boom")
        ({ maxAttempts := some 1 } : Options Nat)).delaysAwaited.length = 1
    ∧ ¬ ((useRetryFn (fun _ => bfail "boom")
        ({ maxAttempts := some 1 } : Options Nat)).delaysAwaited.length = 1 - 1) := by
  constructor
  · rfl
  · decide

/-- C3 amended: the delay is awaited after every failed attempt that is
neither skip-terminated nor terminated by a throwing `onError` — including
the attempt-exhausting failure.  For an always-failing operation with
`maxAttempts = m` and no skip, the delay is awaited exactly `m` times: one
suspension also occurs between the final (`m`-th) failure and the terminal
failure of `execute`. -/
theorem claim_C3_amended (fn : Nat → FnBehavior α) (opts : Options α)
    (errOf : Nat → JsError) (m : Nat) (hm : 1 ≤ m)
    (hM : opts.maxAttemptsVal = (m : Int))
    (htimeout : opts.timeout = none)
    (hfail : ∀ i, 1 ≤ i → i ≤ m → (fn i).result = Except.error (errOf i))
    (hskip : ∀ i, 1 ≤ i → i ≤ m → (fn i).skipCalls = [])
    (hoe : ∀ handler, opts.onError = some handler → ∀ i,
      (handler i).skipCalls = [] ∧ (handler i).thrown = none) :
    (useRetryFn fn opts).delaysAwaited.length = m
    ∧ (useRetryFn fn opts).delaysAwaited
        = (List.range' 1 m).map (resolveDelay opts.delay) := by
  rw [useRetryFn_exhaust fn opts errOf m hm hM htimeout hfail hskip hoe]
  simp

theorem claim_C3_amended_witness :
    (useRetryFn (fun i => bfail (toString i)) ({} : Options Nat)).delaysAwaited.length = 5
    ∧ (useRetryFn (fun i => bfail (toString i)) ({} : Options Nat)).delaysAwaited
        = (List.range' 1 5).map (resolveDelay (DelaySpec.unset)) :=
  claim_C3_amended (fun i => bfail (toString i)) {} (fun i => JsError.mk (toString i)) 5
    (by decide) rfl rfl
    (fun i h1 h2 => rfl)
    (fun i h1 h2 => rfl)
    (fun handler hh => by cases hh)

/-- C10: if `maxAttempts` is configured to a non-positive value, the loop body
never runs: the operation is never invoked, no delay is awaited, `onError` is
never invoked, and `execute` fails by throwing the initial `null` value of
`lastError` rather than any `Error` object. -/
theorem claim_C10 (fn : Nat → FnBehavior α) (opts : Options α)
    (hM : opts.maxAttemptsVal ≤ 0) :
    useRetryFn fn opts = ⟨Except.error none, [], [], [], 1⟩ := by
  unfold useRetryFn
  rw [Int.toNat_eq_zero.mpr hM, runLoop_zero]

theorem claim_C10_witness :
    useRetryFn (fun i => bfail (toString i)) ({ maxAttempts := some 0 } : Options Nat)
      = ⟨Except.error none, [], [], [], 1⟩ :=
  claim_C10 (fun i => bfail (toString i)) { maxAttempts := some 0 } (by decide)

/-- C4: if the skip capability is invoked during attempt `n` (inside the
operation or inside the `onError` hook) and that attempt fails, `execute`
fails after exactly `n` invocations of the operation, regardless of remaining
attempt budget; the terminal error is the error value supplied to the last
skip call if one was supplied (`c = some e` gives `e`), and the error thrown
by that same attempt if the capability was invoked with no argument
(`c = none` gives `errOf n`). -/
theorem claim_C4 (fn : Nat → FnBehavior α) (opts : Options α)
    (handler : Nat → OnErrorBehavior) (errOf : Nat → JsError) (n : Nat)
    (c : Option JsError)
    (hn : 1 ≤ n) (hnM : (n : Int) ≤ opts.maxAttemptsVal)
    (htimeout : opts.timeout = none)
    (hoecfg : opts.onError = some handler)
    (hpfail : ∀ i, 1 ≤ i → i < n → (fn i).result = Except.error (errOf i))
    (hpskip : ∀ i, 1 ≤ i → i < n → (fn i).skipCalls = [])
    (hphandler : ∀ i, 2 ≤ i → i ≤ n →
      (handler i).skipCalls = [] ∧ (handler i).thrown = none)
    (hfailn : (fn n).result = Except.error (errOf n))
    (hthrow : (handler (n + 1)).thrown = none)
    (hlast : ((fn n).skipCalls ++ (handler (n + 1)).skipCalls).getLast? = some c) :
    (useRetryFn fn opts).result = Except.error (some (c.getD (errOf n)))
    ∧ (useRetryFn fn opts).fnCalls.length = n := by
  have hF : n ≤ opts.maxAttemptsVal.toNat := by omega
  have hpre := runLoop_failSegment fn opts errOf (n - 1)
    (opts.maxAttemptsVal.toNat - (n - 1)) 1 none
    (fun i h1 h2 => hpfail i h1 (by omega))
    (fun i h1 h2 => hpskip i h1 (by omega))
    htimeout
    (fun h' hh i hi1 hi2 => by
      rw [hoecfg] at hh
      cases hh
      exact hphandler i (by omega) (by omega))
  have hsplit : opts.maxAttemptsVal.toNat - (n - 1) + (n - 1)
      = opts.maxAttemptsVal.toNat := by omega
  rw [hsplit] at hpre
  have hn1 : 1 + (n - 1) = n := by omega
  rw [hn1] at hpre
  have hrem : opts.maxAttemptsVal.toNat - (n - 1)
      = (opts.maxAttemptsVal.toNat - n) + 1 := by omega
  rw [hrem] at hpre
  rw [runLoop_succ_skip fn opts (opts.maxAttemptsVal.toNat - n) n _ (errOf n) c
    htimeout hfailn
    (by rw [hoecfg]; exact hlast)
    (fun h' hh => by rw [hoecfg] at hh; cases hh; exact hthrow)] at hpre
  unfold useRetryFn
  rw [hpre]
  refine ⟨rfl, ?_⟩
  simp [prependFails]
  omega

theorem claim_C4_witness :
    (useRetryFn
        (fun i => if i = 2 then ⟨[some (JsError.mk "custom")],
          Except.error (JsError.mk "reg"), 0⟩ else bfail "reg")
        ({ maxAttempts := some 5, onError := some benignHandler } : Options Nat)).result
      = Except.error (some (JsError.mk "custom"))
    ∧ (useRetryFn
        (fun i => if i = 2 then ⟨[some (JsError.mk "custom")],
          Except.error (JsError.mk "reg"), 0⟩ else bfail "reg")
        ({ maxAttempts := some 5, onError := some benignHandler } : Options Nat)).fnCalls.length
      = 2 :=
  claim_C4
    (fun i => if i = 2 then ⟨[some (JsError.mk "custom")],
      Except.error (JsError.mk "reg"), 0⟩ else bfail "reg")
    { maxAttempts := some 5, onError := some benignHandler }
    benignHandler (fun _ => JsError.mk "reg") 2 (some (JsError.mk "custom"))
    (by decide) (by decide) rfl rfl
    (fun i h1 h2 => by
      have hi : i = 1 := by omega
      subst hi
      rfl)
    (fun i h1 h2 => by
      have hi : i = 1 := by omega
      subst hi
      rfl)
    (fun i h1 h2 => ⟨rfl, rfl⟩)
    rfl rfl rfl

/-- C5: when the `timeout` option is set and the operation's completion
exceeds it (the timer wins the race), `execute` fails with the synthesized
timeout error whose message is `Operation timed out`, the operation is
invoked exactly once regardless of `maxAttempts`, no delay is awaited, and
the timer latches `skipRetry` unconditionally so the timed-out attempt is
never retried. -/
theorem claim_C5 (fn : Nat → FnBehavior α) (opts : Options α) (t : Nat)
    (hM : 1 ≤ opts.maxAttemptsVal)
    (htimeout : opts.timeout = some t) (ht : 0 < t)
    (hdur : t < (fn 1).duration)
    (hskip : (fn 1).skipCalls = [])
    (hoe : ∀ handler, opts.onError = some handler →
      (handler 2).skipCalls = [] ∧ (handler 2).thrown = none) :
    (useRetryFn fn opts).result = Except.error (some timeoutError)
    ∧ timeoutError = JsError.mk "Operation timed out"
    ∧ (useRetryFn fn opts).fnCalls = [1]
    ∧ (useRetryFn fn opts).delaysAwaited = []
    ∧ (raceSkipState opts.timeout (fn 1)).skipRetry = true := by
  have hF : opts.maxAttemptsVal.toNat = (opts.maxAttemptsVal.toNat - 1) + 1 := by omega
  unfold useRetryFn
  rw [hF, runLoop_succ_timer fn opts (opts.maxAttemptsVal.toNat - 1) 1 none t
    htimeout ht hdur hskip (fun handler hh => hoe handler hh)]
  refine ⟨rfl, rfl, rfl, rfl, ?_⟩
  have hw : timerWins opts.timeout (fn 1) = true := by
    simp [timerWins, htimeout, hdur]
    omega
  simp [raceSkipState, hw]

theorem claim_C5_witness :
    (useRetryFn (fun _ => ⟨[], Except.ok 1, 2000⟩)
        ({ timeout := some 1000 } : Options Nat)).result
      = Except.error (some timeoutError)
    ∧ timeoutError = JsError.mk "Operation timed out"
    ∧ (useRetryFn (fun _ => ⟨[], Except.ok 1, 2000⟩)
        ({ timeout := some 1000 } : Options Nat)).fnCalls = [1]
    ∧ (useRetryFn (fun _ => ⟨[], Except.ok 1, 2000⟩)
        ({ timeout := some 1000 } : Options Nat)).delaysAwaited = []
    ∧ (raceSkipState (some 1000) ((fun _ => (⟨[], Except.ok 1, 2000⟩ : FnBehavior Nat)) 1)).skipRetry
      = true :=
  claim_C5 (fun _ => ⟨[], Except.ok 1, 2000⟩) { timeout := some 1000 } 1000
    (by decide) rfl (by decide) (by decide) rfl
    (fun handler hh => by cases hh)

/-- C6: when configured, `onError` is invoked exactly once per failed attempt
and never on a successful attempt — its invocations are exactly the failed
attempt ordinals, each carrying the post-increment `attempts` value (the
failed attempt's ordinal plus one, i.e. the 1-based count of failures
observed so far plus the initial 1). -/
theorem claim_C6 (fn : Nat → FnBehavior α) (opts : Options α)
    (handler : Nat → OnErrorBehavior) (hoecfg : opts.onError = some handler) :
    (useRetryFn fn opts).onErrorCalls =
      ((useRetryFn fn opts).fnCalls.filter (attemptFails opts fn)).map
        (fun i => i + 1) :=
  onError_trace fn opts handler hoecfg opts.maxAttemptsVal.toNat 1 none

theorem claim_C6_witness :
    (useRetryFn (fun i => bfail (toString i))
        ({ maxAttempts := some 2, onError := some benignHandler } : Options Nat)).onErrorCalls
      = ((useRetryFn (fun i => bfail (toString i))
          ({ maxAttempts := some 2, onError := some benignHandler } : Options Nat)).fnCalls.filter
            (attemptFails { maxAttempts := some 2, onError := some benignHandler }
              (fun i => bfail (toString i)))).map (fun i => i + 1) :=
  claim_C6 (fun i => bfail (toString i))
    { maxAttempts := some 2, onError := some benignHandler } benignHandler rfl

/-- C7: the attempt ordinal is used asymmetrically: the awaited delays are the
delay function applied to the pre-increment ordinals `1, ..., k` of the failed
attempts, the operation body observes `attempts = 1, ..., k+1`, and the
`onError` hook observes the post-increment ordinals `2, ..., k+1`. -/
theorem claim_C7 (fn : Nat → FnBehavior α) (opts : Options α)
    (handler : Nat → OnErrorBehavior) (dfn : Nat → Nat)
    (errOf : Nat → JsError) (v : α) (k : Nat)
    (hk : (k : Int) < opts.maxAttemptsVal)
    (htimeout : opts.timeout = none)
    (hdelay : opts.delay = DelaySpec.computed dfn)
    (hoecfg : opts.onError = some handler)
    (hfail : ∀ i, 1 ≤ i → i ≤ k → (fn i).result = Except.error (errOf i))
    (hskip : ∀ i, 1 ≤ i → i ≤ k → (fn i).skipCalls = [])
    (hsucc : (fn (k + 1)).result = Except.ok v)
    (hoe : ∀ i, (handler i).skipCalls = [] ∧ (handler i).thrown = none) :
    (useRetryFn fn opts).delaysAwaited = (List.range' 1 k).map dfn
    ∧ (useRetryFn fn opts).onErrorCalls = List.range' 2 k
    ∧ (useRetryFn fn opts).fnCalls = List.range' 1 (k + 1) := by
  rw [useRetryFn_failThenSucceed fn opts errOf v k hk htimeout hfail hskip hsucc
    (fun h' hh i => by rw [hoecfg] at hh; cases hh; exact hoe i)]
  rw [hdelay]
  refine ⟨rfl, ?_, rfl⟩
  simp [hoecfg]

theorem claim_C7_witness :
    (useRetryFn (fun i => if i ≤ 2 then bfail "a" else bok 9)
        ({ delay := DelaySpec.computed (fun a => a * 50), onError := some benignHandler }
          : Options Nat)).delaysAwaited
      = (List.range' 1 2).map (fun a => a * 50)
    ∧ (useRetryFn (fun i => if i ≤ 2 then bfail "a" else bok 9)
        ({ delay := DelaySpec.computed (fun a => a * 50), onError := some benignHandler }
          : Options Nat)).onErrorCalls = List.range' 2 2
    ∧ (useRetryFn (fun i => if i ≤ 2 then bfail "a" else bok 9)
        ({ delay := DelaySpec.computed (fun a => a * 50), onError := some benignHandler }
          : Options Nat)).fnCalls = List.range' 1 (2 + 1) :=
  claim_C7 (fun i => if i ≤ 2 then bfail "a" else bok 9)
    { delay := DelaySpec.computed (fun a => a * 50), onError := some benignHandler }
    benignHandler (fun a => a * 50) (fun _ => JsError.mk "a") 9 2
    (by decide) rfl rfl rfl
    (fun i h1 h2 => by simp [h2, bfail])
    (fun i h1 h2 => by simp [h2, bfail])
    rfl
    (fun i => ⟨rfl, rfl⟩)

/-- C8: throughout any single run the `attempts` counter starts at 1 and is
monotonically non-decreasing (the operation observes the consecutive ordinals
`1, 2, ...`), the final counter value never exceeds `maxAttempts + 1`, and the
skip capability latches permanently: a further call only replaces
`customError` with the newly supplied value and never un-latches
`skipRetry`. -/
theorem claim_C8 (fn : Nat → FnBehavior α) (opts : Options α)
    (hM : 0 ≤ opts.maxAttemptsVal) :
    (useRetryFn fn opts).fnCalls
        = List.range' 1 (useRetryFn fn opts).fnCalls.length
    ∧ ((useRetryFn fn opts).finalAttempts : Int) ≤ opts.maxAttemptsVal + 1
    ∧ (∀ (s : SkipState) (calls : List (Option JsError)) (e : Option JsError),
        applySkipCalls s (calls ++ [e]) = ⟨e, true⟩)
    ∧ (∀ (s : SkipState) (calls : List (Option JsError)),
        s.skipRetry = true → (applySkipCalls s calls).skipRetry = true) := by
  refine ⟨fnCalls_consecutive fn opts opts.maxAttemptsVal.toNat 1 none, ?_, ?_, ?_⟩
  · have h := finalAttempts_le fn opts opts.maxAttemptsVal.toNat 1 none
    have h2 : (opts.maxAttemptsVal.toNat : Int) = opts.maxAttemptsVal :=
      Int.toNat_of_nonneg hM
    unfold useRetryFn
    omega
  · intro s calls e
    rw [applySkipCalls_append]
    rfl
  · exact fun s calls h => applySkipCalls_latched s calls h

theorem claim_C8_witness :
    (useRetryFn (fun i => bfail (toString i)) ({} : Options Nat)).fnCalls
        = List.range' 1 (useRetryFn (fun i => bfail (toString i))
            ({} : Options Nat)).fnCalls.length
    ∧ ((useRetryFn (fun i => bfail (toString i)) ({} : Options Nat)).finalAttempts : Int)
        ≤ Options.maxAttemptsVal ({} : Options Nat) + 1
    ∧ (∀ (s : SkipState) (calls : List (Option JsError)) (e : Option JsError),
        applySkipCalls s (calls ++ [e]) = ⟨e, true⟩)
    ∧ (∀ (s : SkipState) (calls : List (Option JsError)),
        s.skipRetry = true → (applySkipCalls s calls).skipRetry = true) :=
  claim_C8 (fun i => bfail (toString i)) {} (by decide)

/-- C9: if the `onError` callback itself throws on the `n`-th (failed)
attempt, that exception propagates directly out of `execute` as its failure,
replacing the attempt's intended terminal error; the skip decision is never
consulted (the hook's own skip calls are unrestricted here and do not affect
the outcome), no delay is awaited for that failure, and no further attempts
are made. -/
theorem claim_C9 (fn : Nat → FnBehavior α) (opts : Options α)
    (handler : Nat → OnErrorBehavior) (errOf : Nat → JsError) (e2 : JsError)
    (n : Nat) (hn : 1 ≤ n) (hnM : (n : Int) ≤ opts.maxAttemptsVal)
    (htimeout : opts.timeout = none)
    (hoecfg : opts.onError = some handler)
    (hpfail : ∀ i, 1 ≤ i → i ≤ n → (fn i).result = Except.error (errOf i))
    (hpskip : ∀ i, 1 ≤ i → i < n → (fn i).skipCalls = [])
    (hphandler : ∀ i, 2 ≤ i → i ≤ n →
      (handler i).skipCalls = [] ∧ (handler i).thrown = none)
    (hthrow : (handler (n + 1)).thrown = some e2) :
    (useRetryFn fn opts).result = Except.error (some e2)
    ∧ (useRetryFn fn opts).fnCalls.length = n
    ∧ (useRetryFn fn opts).delaysAwaited.length = n - 1
    ∧ (useRetryFn fn opts).onErrorCalls = List.range' 2 n := by
  have hF : n ≤ opts.maxAttemptsVal.toNat := by omega
  have hpre := runLoop_failSegment fn opts errOf (n - 1)
    (opts.maxAttemptsVal.toNat - (n - 1)) 1 none
    (fun i h1 h2 => hpfail i h1 (by omega))
    (fun i h1 h2 => hpskip i h1 (by omega))
    htimeout
    (fun h' hh i hi1 hi2 => by
      rw [hoecfg] at hh
      cases hh
      exact hphandler i (by omega) (by omega))
  have hsplit : opts.maxAttemptsVal.toNat - (n - 1) + (n - 1)
      = opts.maxAttemptsVal.toNat := by omega
  rw [hsplit] at hpre
  have hn1 : 1 + (n - 1) = n := by omega
  rw [hn1] at hpre
  have hrem : opts.maxAttemptsVal.toNat - (n - 1)
      = (opts.maxAttemptsVal.toNat - n) + 1 := by omega
  rw [hrem] at hpre
  rw [runLoop_succ_handler_throws fn opts handler (opts.maxAttemptsVal.toNat - n) n _
    (errOf n) e2 htimeout hoecfg (hpfail n (by omega) (by omega)) hthrow] at hpre
  unfold useRetryFn
  rw [hpre]
  refine ⟨rfl, ?_, ?_, ?_⟩
  · simp [prependFails]
    omega
  · simp [prependFails]
  · simp only [prependFails, hoecfg, Option.isSome_some, if_true]
    have h2 : List.range' 2 (n - 1) ++ [n + 1] = List.range' 2 n := by
      have hx : n = (n - 1) + 1 := by omega
      have hy : 2 + (n - 1) = n + 1 := by omega
      rw [hx, range'_concat_one]
      rw [hy]
      rw [← hx]
    simp [h2]

theorem claim_C9_witness :
    (useRetryFn (fun i => bfail (toString i))
        ({ onError := some (fun i => if i = 3
            then ⟨[some (JsError.mk "x")], some (JsError.mk "oe")⟩
            else ⟨[], none⟩) } : Options Nat)).result
      = Except.error (some (JsError.mk "oe"))
    ∧ (useRetryFn (fun i => bfail (toString i))
        ({ onError := some (fun i => if i = 3
            then ⟨[some (JsError.mk "x")], some (JsError.mk "oe")⟩
            else ⟨[], none⟩) } : Options Nat)).fnCalls.length = 2
    ∧ (useRetryFn (fun i => bfail (toString i))
        ({ onError := some (fun i => if i = 3
            then ⟨[some (JsError.mk "x")], some (JsError.mk "oe")⟩
            else ⟨[], none⟩) } : Options Nat)).delaysAwaited.length = 2 - 1
    ∧ (useRetryFn (fun i => bfail (toString i))
        ({ onError := some (fun i => if i = 3
            then ⟨[some (JsError.mk "x")], some (JsError.mk "oe")⟩
            else ⟨[], none⟩) } : Options Nat)).onErrorCalls = List.range' 2 2 :=
  claim_C9 (fun i => bfail (toString i))
    { onError := some (fun i => if i = 3
        then ⟨[some (JsError.mk "x")], some (JsError.mk "oe")⟩
        else ⟨[], none⟩) }
    (fun i => if i = 3 then ⟨[some (JsError.mk "x")], some (JsError.mk "oe")⟩
      else ⟨[], none⟩)
    (fun i => JsError.mk (toString i)) (JsError.mk "oe") 2
    (by decide) (by decide) rfl rfl
    (fun i h1 h2 => rfl)
    (fun i h1 h2 => rfl)
    (fun i h1 h2 => by
      have hi : i = 2 := by omega
      subst hi
      exact ⟨rfl, rfl⟩)
    rfl
